import Mathlib

/-!
Verification of the mcp-knowledge server (`src/mcp-servers/mcp-knowledge`).

The development shallowly embeds the Python sources:
* `server.py` — RPC routing (`handle_rpc`, `process_method`, `call_tool`) and
  the SSE streaming channel (`handle_sse`);
* `tools/embeddings_tools.py` — `EmbeddingsModel.embed` / `embed_batch` and
  the embeddings tools;
* `tools/neo4j_tools.py` — the four Neo4j tool handlers;
* `tools/qdrant_tools.py` — the five Qdrant tool handlers.

External collaborators (the Neo4j driver, the Qdrant client, the sentence
transformer) are modelled as function parameters; each handler additionally
returns the list of store operations it issued, so that theorems can speak
about what was (or was not) sent to a store.  Python dicts keyed by known
field names are modelled as structures of `Option` fields (a `none` field is
an absent key); vectors are lists of real numbers.
-/

/-- JSON values as used by the protocol layer (`server.py`).  Only the
constructors the server actually produces are needed. -/
inductive Json where
  | null : Json
  | bool (b : Bool) : Json
  | int (n : Int) : Json
  | str (s : String) : Json
  | arr (elems : List Json) : Json
  | obj (fields : List (String × Json)) : Json

/-- The `capabilities` object returned by the `initialize` method
(`server.py`, `process_method`): `{'tools': {'listTools': True}}`. -/
def initializeCapabilities : Json :=
  Json.obj [("tools", Json.obj [("listTools", Json.bool true)])]

/-- The full result of the `initialize` method (`server.py`). -/
def initializeResult : Json :=
  Json.obj [("protocolVersion", Json.str "1.0.0"),
            ("capabilities", initializeCapabilities)]

/-- The `capabilities` object the SSE channel sends in its opening
notification (`server.py`, `handle_sse`): `{'tools': True}`. -/
def sseCapabilities : Json :=
  Json.obj [("tools", Json.bool true)]

/-- The opening message of the SSE channel (`server.py`, `handle_sse`):
`{'jsonrpc': '2.0', 'method': 'initialized', 'params': {...}}`. -/
def sseInitMessage : Json :=
  Json.obj [("jsonrpc", Json.str "2.0"),
            ("method", Json.str "initialized"),
            ("params", Json.obj [("protocolVersion", Json.str "1.0.0"),
                                 ("capabilities", sseCapabilities)])]

/-- The heartbeat message of the SSE channel (`server.py`, `handle_sse`):
`{'ping': True}`. -/
def pingMessage : Json :=
  Json.obj [("ping", Json.bool true)]

/-- Timed trace of messages emitted on the SSE channel when the client
disconnects after `n` heartbeats (`server.py`, `handle_sse`): the opening
notification is sent immediately; each loop iteration sleeps 30 time units
and then sends a ping.  The `CancelledError` handler makes the coroutine
return normally, so the trace is exactly this finite list: nothing is
emitted after the `n`-th heartbeat. -/
def sseTrace (n : Nat) : List (Nat × Json) :=
  (0, sseInitMessage) :: (List.range n).map (fun k => (30 * (k + 1), pingMessage))

/-- The eleven tool names dispatched by `MCPServer.call_tool`
(`server.py`). -/
def knownToolNames : List String :=
  ["neo4j_query", "neo4j_create_node", "neo4j_create_relationship",
   "neo4j_vector_search", "embeddings_generate", "qdrant_create_collection",
   "qdrant_upsert_points", "qdrant_search", "qdrant_get_collection_info",
   "qdrant_delete_points", "embeddings_model_info"]

/-- The tool-method implementations of `MCPServer` (`server.py`), abstracted
as opaque functions from an arguments object to a result object, plus the
static `tools/list` catalog.  Claims about the dispatch layer do not depend
on the bodies of the individual tool methods, which are embedded in full
from `tools/` further below. -/
structure ServerEnv where
  neo4j_query : Json → Json
  neo4j_create_node : Json → Json
  neo4j_create_relationship : Json → Json
  neo4j_vector_search : Json → Json
  embeddings_generate : Json → Json
  qdrant_create_collection : Json → Json
  qdrant_upsert_points : Json → Json
  qdrant_search : Json → Json
  qdrant_get_collection_info : Json → Json
  qdrant_delete_points : Json → Json
  embeddings_model_info : Json → Json
  toolsListResult : Json

/-- The `params` object of a `tools/call` request: `params.get('name')` and
`params.get('arguments', {})` (`server.py`, `process_method`). -/
structure RpcParams where
  name : Option String
  arguments : Option Json

/-- A JSON-RPC request as read by `handle_rpc` (`server.py`): `data.get`
makes every top-level field optional; a missing `id` is Python `None`,
modelled as `Json.null`. -/
structure RpcRequest where
  method : Option String
  params : RpcParams
  id : Json

/-- A JSON-RPC response (`server.py`, `handle_rpc`): either
`{'jsonrpc':'2.0','result':r,'id':id}` or
`{'jsonrpc':'2.0','error':{'code':c,'message':m},'id':id}`. -/
inductive RpcResponse where
  | result (r : Json) (id : Json) : RpcResponse
  | rpcError (code : Int) (message : String) (id : Json) : RpcResponse

/-- How Python renders the tool name into the `Unknown tool:` message:
`f"Unknown tool: {tool_name}"` prints `None` for a missing name. -/
def optNameRepr : Option String → String
  | some s => s
  | none => "None"

/-- `MCPServer.call_tool` (`server.py`): an eleven-way dispatch on the tool
name; any other name raises `ValueError(f"Unknown tool: {tool_name}")`,
modelled as the `Except.error` case. -/
def callTool (env : ServerEnv) (name : Option String) (arguments : Json) :
    Except String Json :=
  if name = some "neo4j_query" then .ok (env.neo4j_query arguments)
  else if name = some "neo4j_create_node" then .ok (env.neo4j_create_node arguments)
  else if name = some "neo4j_create_relationship" then
    .ok (env.neo4j_create_relationship arguments)
  else if name = some "neo4j_vector_search" then .ok (env.neo4j_vector_search arguments)
  else if name = some "embeddings_generate" then .ok (env.embeddings_generate arguments)
  else if name = some "qdrant_create_collection" then
    .ok (env.qdrant_create_collection arguments)
  else if name = some "qdrant_upsert_points" then .ok (env.qdrant_upsert_points arguments)
  else if name = some "qdrant_search" then .ok (env.qdrant_search arguments)
  else if name = some "qdrant_get_collection_info" then
    .ok (env.qdrant_get_collection_info arguments)
  else if name = some "qdrant_delete_points" then .ok (env.qdrant_delete_points arguments)
  else if name = some "embeddings_model_info" then .ok (env.embeddings_model_info arguments)
  else .error ("Unknown tool: " ++ optNameRepr name)

/-- `MCPServer.process_method` (`server.py`): routes `initialize`,
`tools/list` and `tools/call`; any other method raises
`ValueError(f"Unknown method: {method}")`. -/
def processMethod (env : ServerEnv) (method : Option String) (params : RpcParams) :
    Except String Json :=
  if method = some "initialize" then .ok initializeResult
  else if method = some "tools/list" then .ok env.toolsListResult
  else if method = some "tools/call" then
    callTool env params.name (params.arguments.getD (Json.obj []))
  else .error ("Unknown method: " ++ optNameRepr method)

/-- `MCPServer.handle_rpc` (`server.py`): a successful `process_method`
becomes a `result` envelope; any exception is caught and becomes an
`error` envelope with code `-32603` and the exception text, echoing the
request id. -/
def handleRpc (env : ServerEnv) (req : RpcRequest) : RpcResponse :=
  match processMethod env req.method req.params with
  | .ok r => .result r req.id
  | .error msg => .rpcError (-32603) msg req.id

/-- A `ServerEnv` with trivial tool bodies, used to evaluate the dispatch
layer at concrete requests. -/
def trivialEnv : ServerEnv :=
  ⟨fun _ => Json.null, fun _ => Json.null, fun _ => Json.null, fun _ => Json.null,
   fun _ => Json.null, fun _ => Json.null, fun _ => Json.null, fun _ => Json.null,
   fun _ => Json.null, fun _ => Json.null, fun _ => Json.null, Json.null⟩

/-! ## Embedding gateway (`tools/embeddings_tools.py`) -/

/-- Euclidean norm of a vector, as computed by `np.linalg.norm`. -/
noncomputable def l2norm (v : List ℝ) : ℝ :=
  Real.sqrt ((v.map fun x => x * x).sum)

/-- The guard `1e-10` used by `EmbeddingsModel.embed_batch`
(`np.maximum(norms, 1e-10)`). -/
noncomputable def eps : ℝ := 1 / 10 ^ 10

/-- The `EmbeddingsModel` wrapper (`tools/embeddings_tools.py`).  The
underlying sentence transformer is the opaque deterministic map `model`
(its `encode` on a list of texts is the elementwise map); `normalize` is
the normalization flag fixed at construction. -/
structure EmbeddingsModel where
  model_name : String
  model : String → List ℝ
  embedding_dimension : Nat
  normalize : Bool

/-- `EmbeddingsModel.embed` (`tools/embeddings_tools.py`, lines 39-60):
encode the text; if `normalize` is set, divide by the Euclidean norm when
it is positive, otherwise return the raw vector. -/
noncomputable def EmbeddingsModel.embed (self : EmbeddingsModel) (text : String) :
    List ℝ :=
  let embedding := self.model text
  if self.normalize then
    let n := l2norm embedding
    if 0 < n then embedding.map (fun x => x / n) else embedding
  else embedding

/-- `EmbeddingsModel.embed_batch` (`tools/embeddings_tools.py`, lines
62-83): encode all texts; if `normalize` is set, divide each row by
`max` of its norm and `1e-10`.  The `batch_size` argument only tunes the
encoder's internal batching and does not affect the result; it is kept in
the signature and ignored. -/
noncomputable def EmbeddingsModel.embed_batch (self : EmbeddingsModel)
    (texts : List String) (_batchSize : Nat) : List (List ℝ) :=
  let embeddings := texts.map self.model
  if self.normalize then
    embeddings.map (fun e => e.map (fun x => x / max (l2norm e) eps))
  else embeddings

/-- The per-row transformation applied by `embed_batch`: the raw encoding,
divided by `max(norm, 1e-10)` when normalization is on. -/
noncomputable def batchVec (m : EmbeddingsModel) (t : String) : List ℝ :=
  if m.normalize then
    (m.model t).map (fun x => x / max (l2norm (m.model t)) eps)
  else m.model t

/-- Arguments of the `embeddings_generate` tool. -/
structure GenerateArgs where
  text : Option String
  texts : Option (List String)

/-- Result of the `embeddings_generate` tool; `err msg` encodes the
`{"success": False, "error": msg}` dictionary, the `ok` constructors the
`{"success": True, ...}` dictionaries. -/
inductive GenerateResult where
  | okSingle (embedding : List ℝ) (model : String) (dimension : Nat) : GenerateResult
  | okBatch (embeddings : List (List ℝ)) (model : String) (dimension : Nat) : GenerateResult
  | err (msg : String) : GenerateResult

/-- `EmbeddingsGenerateTool.execute` (`tools/embeddings_tools.py`, lines
122-160): the `text` key takes precedence over `texts`; with neither key
present the failure dictionary is returned (not raised). -/
noncomputable def EmbeddingsGenerateTool.execute (em : EmbeddingsModel)
    (args : GenerateArgs) : GenerateResult :=
  match args.text with
  | some t => .okSingle (em.embed t) em.model_name em.embedding_dimension
  | none =>
    match args.texts with
    | some ts => .okBatch (em.embed_batch ts 32) em.model_name em.embedding_dimension
    | none => .err "Either 'text' or 'texts' must be provided"

/-! ## Neo4j adapter tools (`tools/neo4j_tools.py`) -/

/-- A Neo4j property value: scalar strings, integers, reals, booleans, or a
vector-valued property (an embedding). -/
inductive PropValue where
  | str (s : String) : PropValue
  | int (n : Int) : PropValue
  | real (x : ℝ) : PropValue
  | bool (b : Bool) : PropValue
  | vec (v : List ℝ) : PropValue

/-- A property mapping; the list order models Python dict insertion
order. -/
abbrev Properties := List (String × PropValue)

/-- Python `properties[key] = value`: overwrite an existing key in place,
otherwise append. -/
def setProp (ps : Properties) (k : String) (v : PropValue) : Properties :=
  if ps.any (fun kv => kv.1 = k) then
    ps.map (fun kv => if kv.1 = k then (k, v) else kv)
  else ps ++ [(k, v)]

/-- A store operation issued to the Neo4j driver, recording exactly the
query text and bound parameters passed to `session.run`. -/
inductive Neo4jOp where
  | runQuery (query : String) (params : Properties) : Neo4jOp
  | createNode (query : String) (properties : Properties) : Neo4jOp
  | createRel (query : String) (startId : Int) (endId : Int)
      (properties : Properties) : Neo4jOp
  | vectorSearch (query : String) (queryVector : List ℝ) (minSimilarity : ℝ)
      (limit : Nat) : Neo4jOp

/-- Arguments of `neo4j_create_node`. -/
structure CreateNodeArgs where
  labels : Option (List String)
  properties : Option Properties
  create_embedding : Option Bool
  embedding_property : Option String

/-- Result of `neo4j_create_node`; `err msg` encodes
`{"success": False, "error": msg}`. -/
inductive CreateNodeResult where
  | ok (id : Int) (labels : List String) (properties : Properties) : CreateNodeResult
  | err (msg : String) : CreateNodeResult

/-- The record shape returned by the driver for the node-creation query
(`RETURN n, id(n) as id, labels(n) as labels`). -/
structure NodeRecord where
  n : Properties
  id : Int
  labels : List String

/-- The Cypher text built by `Neo4jCreateNodeTool.execute` (whitespace of
the Python triple-quoted string flattened to single spaces). -/
def createNodeQuery (labelsStr : String) : String :=
  "CREATE (n:" ++ labelsStr ++ ") SET n = $properties RETURN n, id(n) as id, labels(n) as labels"

/-- `Neo4jCreateNodeTool.execute` (`tools/neo4j_tools.py`, lines 122-195).
`store` models `session.run` followed by `result.single()`: it receives the
query text and the bound properties and yields the single record, if any.
The second component of the result is the list of operations sent to the
store.  Note: no identifier validation is performed on the label tokens
before they are joined and interpolated into the query text. -/
noncomputable def Neo4jCreateNodeTool.execute (em : Option EmbeddingsModel)
    (store : String → Properties → Option NodeRecord) (args : CreateNodeArgs) :
    CreateNodeResult × List Neo4jOp :=
  match args.labels with
  | none => (.err "Missing required parameter: labels", [])
  | some labels =>
    if labels = [] then (.err "At least one label is required", [])
    else
      let properties := args.properties.getD []
      let create_embedding := args.create_embedding.getD false
      let embedding_property := args.embedding_property.getD "embedding"
      let properties :=
        match em with
        | some m =>
          if create_embedding then
            let text_parts := properties.filterMap (fun kv =>
              match kv.2 with
              | .str s => if kv.1 ≠ embedding_property then some (kv.1 ++ ": " ++ s) else none
              | _ => none)
            if text_parts ≠ [] then
              let combined_text := String.intercalate " " text_parts
              setProp properties embedding_property (.vec (m.embed combined_text))
            else properties
          else properties
        | none => properties
      let labels_str := String.intercalate ":" labels
      let query := createNodeQuery labels_str
      match store query properties with
      | some record => (.ok record.id record.labels record.n, [.createNode query properties])
      | none => (.err "Failed to create node", [.createNode query properties])

/-- Arguments of `neo4j_create_relationship`. -/
structure CreateRelArgs where
  start_node_id : Option Int
  end_node_id : Option Int
  relationship_type : Option String
  properties : Option Properties

/-- Result of `neo4j_create_relationship`; `err msg` encodes
`{"success": False, "error": msg}`. -/
inductive CreateRelResult where
  | ok (relType : String) (properties : Properties)
      (startLabels endLabels : List String) : CreateRelResult
  | err (msg : String) : CreateRelResult

/-- The record shape returned by the driver for the relationship-creation
query (`RETURN r, a, b, type(r) as type`). -/
structure RelRecord where
  r : Properties
  aLabels : List String
  bLabels : List String
  type : String

/-- The Cypher text built by `Neo4jCreateRelationshipTool.execute`
(whitespace flattened). -/
def createRelQuery (relType : String) : String :=
  "MATCH (a), (b) WHERE id(a) = $start_id AND id(b) = $end_id CREATE (a)-[r:"
    ++ relType ++ "]->(b) SET r = $properties RETURN r, a, b, type(r) as type"

/-- `Neo4jCreateRelationshipTool.execute` (`tools/neo4j_tools.py`, lines
231-292).  The relationship type is interpolated into the query text with
no identifier validation; a missing endpoint surfaces as the driver
returning no record. -/
def Neo4jCreateRelationshipTool.execute
    (store : String → Int → Int → Properties → Option RelRecord)
    (args : CreateRelArgs) : CreateRelResult × List Neo4jOp :=
  match args.start_node_id with
  | none => (.err "Missing required parameter: start_node_id", [])
  | some start_id =>
    match args.end_node_id with
    | none => (.err "Missing required parameter: end_node_id", [])
    | some end_id =>
      match args.relationship_type with
      | none => (.err "Missing required parameter: relationship_type", [])
      | some rel_type =>
        let properties := args.properties.getD []
        let query := createRelQuery rel_type
        match store query start_id end_id properties with
        | some record =>
          (.ok record.type record.r record.aLabels record.bLabels,
           [.createRel query start_id end_id properties])
        | none =>
          (.err "Failed to create relationship - nodes not found",
           [.createRel query start_id end_id properties])

/-- Arguments of `neo4j_vector_search`. -/
structure VectorSearchArgs where
  query_text : Option String
  query_vector : Option (List ℝ)
  label : Option String
  embedding_property : Option String
  limit : Option Nat
  min_similarity : Option ℝ

/-- Result of `neo4j_vector_search`; each hit is a node property mapping
with its similarity; `err msg` encodes `{"success": False, "error": msg}`. -/
inductive VectorSearchResult where
  | ok (results : List (Properties × ℝ)) : VectorSearchResult
  | err (msg : String) : VectorSearchResult

/-- The Cypher text built by `Neo4jVectorSearchTool.execute` (the
reduction-based cosine-similarity query; whitespace flattened). -/
def vectorSearchQuery (label embeddingProperty : String) : String :=
  "MATCH (n:" ++ label ++ ") WHERE n." ++ embeddingProperty
    ++ " IS NOT NULL WITH n, reduce(dot = 0.0, i IN range(0, size(n."
    ++ embeddingProperty ++ ")-1) | dot + n." ++ embeddingProperty
    ++ "[i] * $query_vector[i]) / (sqrt(reduce(sum1 = 0.0, i IN range(0, size(n."
    ++ embeddingProperty ++ ")-1) | sum1 + n." ++ embeddingProperty ++ "[i] * n."
    ++ embeddingProperty
    ++ "[i])) * sqrt(reduce(sum2 = 0.0, i IN range(0, size($query_vector)-1) | sum2 + $query_vector[i] * $query_vector[i]))) AS similarity WHERE similarity >= $min_similarity RETURN n, similarity ORDER BY similarity DESC LIMIT $limit"

/-- `Neo4jVectorSearchTool.execute` (`tools/neo4j_tools.py`, lines
343-411).  `query_text` is embedded through the gateway when a model is
wired in, and takes precedence over `query_vector`; with neither input the
failure dictionary is returned (not raised, and nothing is sent to the
store). -/
noncomputable def Neo4jVectorSearchTool.execute (em : Option EmbeddingsModel)
    (store : String → List ℝ → ℝ → Nat → List (Properties × ℝ))
    (args : VectorSearchArgs) : VectorSearchResult × List Neo4jOp :=
  match args.label with
  | none => (.err "Missing required parameter: label", [])
  | some label =>
    let embedding_property := args.embedding_property.getD "embedding"
    let limit := args.limit.getD 10
    let min_similarity := args.min_similarity.getD 0
    let queryVector? : Option (List ℝ) :=
      match args.query_text, em with
      | some t, some m => some (m.embed t)
      | _, _ => args.query_vector
    match queryVector? with
    | none => (.err "Either query_text or query_vector must be provided", [])
    | some query_vector =>
      let query := vectorSearchQuery label embedding_property
      (.ok (store query query_vector min_similarity limit),
       [.vectorSearch query query_vector min_similarity limit])



/-! ## Qdrant adapter tools (`tools/qdrant_tools.py`) -/

/-- A point payload: opaque metadata mapping. -/
abbrev Payload := List (String × String)

/-- One entry of the `points` argument of `qdrant_upsert_points`: optional
id, and either a literal vector or a text to embed. -/
structure UpsertPoint where
  id : Option String
  vector : Option (List ℝ)
  text : Option String
  payload : Payload

/-- The `PointStruct` handed to the Qdrant client. -/
structure PointStruct where
  id : String
  vector : List ℝ
  payload : Payload

/-- A filter condition of the `must` clause (`FieldCondition` with a
`MatchValue`). -/
structure FilterCond where
  key : String
  value : String

/-- A search hit as returned by the Qdrant client. -/
structure Hit where
  id : String
  score : ℝ
  payload : Payload

/-- A store operation issued to the Qdrant client. -/
inductive QdrantOp where
  | upsert (collection : String) (points : List PointStruct) : QdrantOp
  | search (collection : String) (queryVector : List ℝ)
      (filter : Option (List FilterCond)) (limit : Nat)
      (scoreThreshold : Option ℝ) : QdrantOp
  | deletePoints (collection : String) (ids : List String) : QdrantOp

/-- Arguments of `qdrant_upsert_points`. -/
structure UpsertArgs where
  collection_name : Option String
  points : Option (List UpsertPoint)

/-- Result of `qdrant_upsert_points`; `err msg` encodes
`{"success": False, "error": msg}`. -/
inductive UpsertResult where
  | ok (collection_name : String) (count : Nat) : UpsertResult
  | err (msg : String) : UpsertResult

/-- Everything observable about one `qdrant_upsert_points` invocation: the
returned dictionary, the batch calls made to the embedding gateway
(`embed_batch` invocations, each with its list of texts), and the
operations sent to the Qdrant client. -/
structure UpsertOutcome where
  result : UpsertResult
  embedCalls : List (List String)
  ops : List QdrantOp

/-- The first loop of `QdrantUpsertPointsTool.execute` (`for i, point_data
in enumerate(points_data)`): build the point list with `None` placeholders
for text-bearing points, collecting their texts and indices; a point with
neither usable text nor a vector aborts with its index.  `genId` models
`str(uuid.uuid4())` as a fresh-id supply indexed by point position. -/
def collectPoints (em : Option EmbeddingsModel) (genId : Nat → String) :
    Nat → List UpsertPoint → Except Nat (List (Option PointStruct) × List String × List Nat)
  | _, [] => .ok ([], [], [])
  | i, p :: rest =>
    match p.text, em with
    | some t, some _ =>
      (collectPoints em genId (i + 1) rest).map
        (fun acc => (none :: acc.1, t :: acc.2.1, i :: acc.2.2))
    | _, _ =>
      match p.vector with
      | some v =>
        (collectPoints em genId (i + 1) rest).map
          (fun acc => (some ⟨p.id.getD (genId i), v, p.payload⟩ :: acc.1, acc.2.1, acc.2.2))
      | none => .error i

/-- The second loop of `QdrantUpsertPointsTool.execute` (`for idx,
(text_idx, embedding) in enumerate(zip(text_indices, embeddings))`): write
each generated embedding back into the placeholder slot at its point's
original index, re-reading id and payload from the original point data. -/
def fillPoints (genId : Nat → String) (ptsData : List UpsertPoint) :
    List (Option PointStruct) → List (Nat × List ℝ) → List (Option PointStruct)
  | ps, [] => ps
  | ps, (idx, emb) :: rest =>
    let p := ptsData.getD idx ⟨none, none, none, []⟩
    fillPoints genId ptsData (ps.set idx (some ⟨p.id.getD (genId idx), emb, p.payload⟩)) rest

/-- `QdrantUpsertPointsTool.execute` (`tools/qdrant_tools.py`, lines
158-237): validate the required arguments, run the collection loop, embed
all collected texts in a single `embed_batch` call, splice the embeddings
back by index, and issue one `upsert` to the client. -/
noncomputable def QdrantUpsertPointsTool.execute (em : Option EmbeddingsModel)
    (genId : Nat → String) (args : UpsertArgs) : UpsertOutcome :=
  match args.collection_name with
  | none => ⟨.err "Missing required parameter: collection_name", [], []⟩
  | some collection_name =>
    match args.points with
    | none => ⟨.err "Missing required parameter: points", [], []⟩
    | some points_data =>
      match collectPoints em genId 0 points_data with
      | .error i =>
        ⟨.err ("Point at index " ++ toString i ++ " must have either 'text' or 'vector'"),
         [], []⟩
      | .ok (points, texts_to_embed, text_indices) =>
        let filled :=
          match texts_to_embed, em with
          | [], _ => (points, ([] : List (List String)))
          | _, none => (points, [])
          | ts, some m =>
            (fillPoints genId points_data points (text_indices.zip (m.embed_batch ts 32)),
             [ts])
        ⟨.ok collection_name filled.1.length, filled.2,
         [.upsert collection_name (filled.1.reduceOption)]⟩

/-- Arguments of `qdrant_search`. -/
structure QdrantSearchArgs where
  collection_name : Option String
  query_text : Option String
  query_vector : Option (List ℝ)
  filter : Option (Option (List FilterCond))
  limit : Option Nat
  score_threshold : Option ℝ

/-- Result of `qdrant_search`; `err msg` encodes
`{"success": False, "error": msg}`. -/
inductive SearchResult where
  | ok (results : List Hit) : SearchResult
  | err (msg : String) : SearchResult

/-- `QdrantSearchTool.execute` (`tools/qdrant_tools.py`, lines 287-355):
`query_text` is embedded through the gateway when a model is wired in and
takes precedence over `query_vector`; with neither input the failure
dictionary is returned before anything reaches the client.  The `filter`
argument carries the optional `must` clause (`none` inside `some` models a
filter object without a `must` key). -/
noncomputable def QdrantSearchTool.execute (em : Option EmbeddingsModel)
    (store : String → List ℝ → Option (List FilterCond) → Nat → Option ℝ → List Hit)
    (args : QdrantSearchArgs) : SearchResult × List QdrantOp :=
  match args.collection_name with
  | none => (.err "Missing required parameter: collection_name", [])
  | some collection_name =>
    let limit := args.limit.getD 10
    let score_threshold := args.score_threshold
    let queryVector? : Option (List ℝ) :=
      match args.query_text, em with
      | some t, some m => some (m.embed t)
      | _, _ => args.query_vector
    match queryVector? with
    | none => (.err "Either query_text or query_vector must be provided", [])
    | some query_vector =>
      let query_filter := (args.filter.getD none)
      (.ok (store collection_name query_vector query_filter limit score_threshold),
       [.search collection_name query_vector query_filter limit score_threshold])

/-- Arguments of `qdrant_delete_points`. -/
structure DeletePointsArgs where
  collection_name : Option String
  point_ids : Option (List String)

/-- Result of `qdrant_delete_points`; `err msg` encodes
`{"success": False, "error": msg}`. -/
inductive DeleteResult where
  | ok (collection_name : String) (deleted_count : Nat) : DeleteResult
  | err (msg : String) : DeleteResult

/-- `QdrantDeletePointsTool.execute` (`tools/qdrant_tools.py`, lines
434-471): one batch `delete` call with the given id list, reporting
`deleted_count = len(point_ids)`.  The tool never consults the store
state, so the reported count is the requested count whether or not each id
existed. -/
def QdrantDeletePointsTool.execute (args : DeletePointsArgs) :
    DeleteResult × List QdrantOp :=
  match args.collection_name with
  | none => (.err "Missing required parameter: collection_name", [])
  | some collection_name =>
    match args.point_ids with
    | none => (.err "Missing required parameter: point_ids", [])
    | some point_ids =>
      (.ok collection_name point_ids.length,
       [.deletePoints collection_name point_ids])

/-- Reference description of the upserted point list, used to state the
splicing theorems: position by position, a text-bearing point carries the
batch embedding of its text and a vector-bearing point its literal vector,
with ids drawn from the original data or the fresh-id supply. -/
noncomputable def specPoints (m : EmbeddingsModel) (genId : Nat → String) :
    List UpsertPoint → List PointStruct
  | [] => []
  | p :: rest =>
    (match p.text, p.vector with
     | some t, _ => ⟨p.id.getD (genId 0), batchVec m t, p.payload⟩
     | none, some v => ⟨p.id.getD (genId 0), v, p.payload⟩
     | none, none => ⟨p.id.getD (genId 0), [], p.payload⟩)
      :: specPoints m (fun k => genId (k + 1)) rest

/-- The text-bearing positions of a point list paired with the batch
embeddings of their texts, relative to position 0; the index part mirrors
`text_indices` and the vector part the output of the single `embed_batch`
call. -/
noncomputable def pairsOf (m : EmbeddingsModel) : List UpsertPoint → List (Nat × List ℝ)
  | [] => []
  | p :: rest =>
    match p.text with
    | some t => (0, batchVec m t) :: (pairsOf m rest).map (fun q => (q.1 + 1, q.2))
    | none => (pairsOf m rest).map (fun q => (q.1 + 1, q.2))

/-- The placeholder list produced by the collection loop: `none` at each
text-bearing position, the finished `PointStruct` at each vector-bearing
position; the fresh-id supply is shifted along the list. -/
def phList (genId : Nat → String) : List UpsertPoint → List (Option PointStruct)
  | [] => []
  | p :: rest =>
    (match p.text with
     | some _ => none
     | none => some ⟨p.id.getD (genId 0), p.vector.getD [], p.payload⟩)
      :: phList (fun k => genId (k + 1)) rest

/-- The `text_indices` list of the collection loop: the absolute positions
(counted from `i`) of the text-bearing points. -/
def idxTexts : Nat → List UpsertPoint → List Nat
  | _, [] => []
  | i, p :: rest =>
    match p.text with
    | some _ => i :: idxTexts (i + 1) rest
    | none => idxTexts (i + 1) rest

/-! ## Helper lemmas -/

theorem sum_sq_nonneg (v : List ℝ) : 0 ≤ (v.map fun x => x * x).sum := by
  apply List.sum_nonneg
  intro y hy
  obtain ⟨x, _, rfl⟩ := List.mem_map.mp hy
  exact mul_self_nonneg x

theorem l2norm_nonneg (v : List ℝ) : 0 ≤ l2norm v := Real.sqrt_nonneg _

theorem eps_pos : 0 < eps := by norm_num [eps]

theorem sum_sq_eq_zero {v : List ℝ} (h : (v.map fun x => x * x).sum = 0) :
    ∀ x ∈ v, x = 0 := by
  induction v with
  | nil => simp
  | cons a l ih =>
    simp only [List.map_cons, List.sum_cons] at h
    have ha : 0 ≤ a * a := mul_self_nonneg a
    have hl : 0 ≤ (l.map fun x => x * x).sum := sum_sq_nonneg l
    have ha0 : a * a = 0 := by linarith
    have hl0 : (l.map fun x => x * x).sum = 0 := by linarith
    intro x hx
    rcases List.mem_cons.mp hx with rfl | hx'
    · exact mul_self_eq_zero.mp ha0
    · exact ih hl0 x hx'

theorem l2norm_eq_zero_forall {v : List ℝ} (h : l2norm v = 0) : ∀ x ∈ v, x = 0 := by
  have hs := sum_sq_nonneg v
  have h' : Real.sqrt ((v.map fun x => x * x).sum) = 0 := h
  have hle : (v.map fun x => x * x).sum ≤ 0 := Real.sqrt_eq_zero'.mp h'
  exact sum_sq_eq_zero (le_antisymm hle hs)

theorem l2norm_zero_of_forall {v : List ℝ} (h : ∀ x ∈ v, x = 0) : l2norm v = 0 := by
  have : (v.map fun x => x * x).sum = 0 := by
    have : v.map (fun x => x * x) = v.map (fun _ => (0 : ℝ)) := by
      apply List.map_congr_left
      intro x hx
      rw [h x hx]; ring
    rw [this]
    simp
  rw [l2norm, this, Real.sqrt_zero]

theorem l2norm_pos {v : List ℝ} (h : ∃ x ∈ v, x ≠ 0) : 0 < l2norm v := by
  rcases h with ⟨x, hx, hx0⟩
  rcases lt_or_eq_of_le (l2norm_nonneg v) with hpos | heq
  · exact hpos
  · exact absurd (l2norm_eq_zero_forall heq.symm x hx) hx0

theorem map_div_of_zero {v : List ℝ} (c : ℝ) (h : ∀ x ∈ v, x = 0) :
    v.map (fun x => x / c) = v := by
  induction v with
  | nil => rfl
  | cons a l ih =>
    have ha := h a (List.mem_cons_self a l)
    simp only [List.map_cons]
    rw [ha, zero_div, ih (fun x hx => h x (List.mem_cons_of_mem a hx))]

theorem sum_sq_map_div (v : List ℝ) (n : ℝ) :
    ((v.map fun x => x / n).map fun x => x * x).sum
      = (v.map fun x => x * x).sum / (n * n) := by
  induction v with
  | nil => simp
  | cons a l ih =>
    simp only [List.map_cons, List.sum_cons, ih]
    rw [div_mul_div_comm, div_add_div_same]

theorem l2norm_map_div {v : List ℝ} (h : 0 < l2norm v) :
    l2norm (v.map fun x => x / l2norm v) = 1 := by
  have hs : 0 ≤ (v.map fun x => x * x).sum := sum_sq_nonneg v
  have hsq : l2norm v * l2norm v = (v.map fun x => x * x).sum :=
    Real.mul_self_sqrt hs
  have hspos : 0 < (v.map fun x => x * x).sum := by
    rcases lt_or_eq_of_le hs with hpos | heq
    · exact hpos
    · exfalso
      rw [l2norm, ← heq, Real.sqrt_zero] at h
      exact lt_irrefl 0 h
  rw [l2norm, sum_sq_map_div, hsq, div_self (ne_of_gt hspos), Real.sqrt_one]

theorem embed_batch_eq_map (m : EmbeddingsModel) (ts : List String) (bs : Nat) :
    m.embed_batch ts bs = ts.map (batchVec m) := by
  cases hn : m.normalize with
  | false => simp [EmbeddingsModel.embed_batch, batchVec, hn]
  | true => simp [EmbeddingsModel.embed_batch, batchVec, hn, List.map_map, Function.comp]

theorem l2norm_single (c : ℝ) (h : 0 ≤ c) : l2norm [c] = c := by
  simp only [l2norm, List.map_cons, List.map_nil, List.sum_cons, List.sum_nil, add_zero]
  exact Real.sqrt_mul_self h

theorem l2norm_pair_34 : l2norm [(3 : ℝ), 4] = 5 := by
  simp only [l2norm, List.map_cons, List.map_nil, List.sum_cons, List.sum_nil, add_zero]
  rw [show (3 : ℝ) * 3 + 4 * 4 = 5 * 5 by norm_num]
  exact Real.sqrt_mul_self (by norm_num)

/-- A raw embedding value strictly between `0` and the `1e-10` guard. -/
noncomputable def tinyVal : ℝ := 1 / 10 ^ 20

/-- A model (normalization enabled) whose raw embeddings have norm
`tinyVal < 1e-10`. -/
noncomputable def tinyModel : EmbeddingsModel := ⟨"tiny", fun _ => [tinyVal], 1, true⟩

/-- A second tiny-norm raw value, for the batch-normalization
counterexample. -/
noncomputable def tiny2Val : ℝ := 1 / 10 ^ 15

/-- A model (normalization enabled) whose raw embeddings have norm
`tiny2Val < 1e-10`. -/
noncomputable def tiny2Model : EmbeddingsModel := ⟨"tiny2", fun _ => [tiny2Val], 1, true⟩

/-- A model (normalization enabled) whose raw embeddings are the zero
vector. -/
noncomputable def zeroModel : EmbeddingsModel := ⟨"zero", fun _ => [0, 0], 2, true⟩

/-- A model (normalization enabled) whose raw embeddings are `[3, 4]`, of
norm `5`. -/
noncomputable def planeModel : EmbeddingsModel := ⟨"plane", fun _ => [3, 4], 2, true⟩

/-! ## Claims about the embedding gateway -/

/-- C3, counterexample.  With normalization enabled and a raw embedding of
norm `1/10^20` (positive but below the batch guard `1e-10`), `embed`
divides by the norm while `embed_batch` divides by `1e-10`, so
`embed(text)` differs from `embed_batch([text])[0]`. -/
theorem embed_vs_batch_counterexample :
    tinyModel.embed "a" ≠ (tinyModel.embed_batch ["a"] 32).headI := by
  have hx : (0 : ℝ) < tinyVal := by norm_num [tinyVal]
  have hnorm : l2norm [tinyVal] = tinyVal := l2norm_single _ hx.le
  have hembed : tinyModel.embed "a" = [1] := by
    simp [EmbeddingsModel.embed, tinyModel, hnorm, hx, div_self (ne_of_gt hx)]
  have hbatch : (tinyModel.embed_batch ["a"] 32).headI = [tinyVal / eps] := by
    simp [EmbeddingsModel.embed_batch, tinyModel, hnorm,
      max_eq_right (show tinyVal ≤ eps by norm_num [tinyVal, eps])]
  rw [hembed, hbatch]
  simp only [ne_eq, List.cons.injEq, and_true]
  norm_num [tinyVal, eps]

/-- C3, amended.  `embed(text)` equals `embed_batch([text])[0]` whenever
normalization is disabled, or the raw embedding has Euclidean norm zero,
or its norm is at least the batch guard `1e-10`; only raw norms strictly
between `0` and `1e-10` separate the two (as in the counterexample). -/
theorem embed_batch_singleton_agrees (self : EmbeddingsModel) (text : String) (bs : Nat)
    (h : self.normalize = false ∨ l2norm (self.model text) = 0
          ∨ eps ≤ l2norm (self.model text)) :
    self.embed text = (self.embed_batch [text] bs).headI := by
  cases hN : self.normalize with
  | false => simp [EmbeddingsModel.embed, EmbeddingsModel.embed_batch, hN]
  | true =>
    rcases h with hn | hz | hge
    · rw [hN] at hn; exact absurd hn (by simp)
    · have hforall := l2norm_eq_zero_forall hz
      simp only [EmbeddingsModel.embed, EmbeddingsModel.embed_batch, hN, if_true,
        List.map_cons, List.map_nil, List.headI, hz, lt_irrefl, if_false]
      rw [max_eq_right (le_of_lt eps_pos)]
      exact (map_div_of_zero eps hforall).symm
    · have hpos : 0 < l2norm (self.model text) := lt_of_lt_of_le eps_pos hge
      simp only [EmbeddingsModel.embed, EmbeddingsModel.embed_batch, hN, if_true,
        List.map_cons, List.map_nil, List.headI, hpos, if_pos hpos]
      rw [max_eq_left hge]

/-- C3, witness: at a model whose raw embedding is the zero vector, the
norm-zero hypothesis holds and single and batch embedding agree. -/
theorem embed_batch_singleton_agrees_witness :
    l2norm (zeroModel.model "w") = 0
      ∧ zeroModel.embed "w" = (zeroModel.embed_batch ["w"] 32).headI := by
  have hz : l2norm (zeroModel.model "w") = 0 := by
    apply l2norm_zero_of_forall
    intro x hx
    simp only [zeroModel, List.mem_cons, List.not_mem_nil, or_false] at hx
    exact hx.elim id id
  exact ⟨hz, embed_batch_singleton_agrees zeroModel "w" 32 (Or.inr (Or.inl hz))⟩

/-- C4, counterexample.  With normalization enabled and a non-zero raw
embedding of norm `1/10^15 < 1e-10`, `embed_batch` does not return the raw
vector divided by its Euclidean norm, and the returned vector does not
have norm `1`. -/
theorem batch_unit_norm_counterexample :
    (tiny2Model.embed_batch ["b"] 32).headI
        ≠ (tiny2Model.model "b").map (fun x => x / l2norm (tiny2Model.model "b"))
      ∧ l2norm ((tiny2Model.embed_batch ["b"] 32).headI) ≠ 1 := by
  have hx : (0 : ℝ) < tiny2Val := by norm_num [tiny2Val]
  have hnorm : l2norm [tiny2Val] = tiny2Val := l2norm_single _ hx.le
  have hb : (tiny2Model.embed_batch ["b"] 32).headI = [tiny2Val / eps] := by
    simp [EmbeddingsModel.embed_batch, tiny2Model, hnorm,
      max_eq_right (show tiny2Val ≤ eps by norm_num [tiny2Val, eps])]
  have hval : tiny2Val / eps = 1 / 10 ^ 5 := by norm_num [tiny2Val, eps]
  constructor
  · rw [hb]
    have hr : (tiny2Model.model "b").map (fun x => x / l2norm (tiny2Model.model "b"))
        = [1] := by
      simp [tiny2Model, hnorm, div_self (ne_of_gt hx)]
    rw [hr, hval]
    simp only [ne_eq, List.cons.injEq, and_true]
    norm_num
  · rw [hb, hval, l2norm_single _ (by norm_num : (0 : ℝ) ≤ 1 / 10 ^ 5)]
    norm_num

/-- C4, amended.  With normalization enabled: `embed` divides a non-zero
raw embedding by its Euclidean norm (the result has norm `1`) and returns a
zero raw embedding unchanged, with no division by zero; `embed_batch` does
the same whenever the raw norm is zero or at least the guard `1e-10` — a
non-zero raw vector with norm below `1e-10` is divided by `1e-10` instead
(counterexample above). -/
theorem normalization_amended (self : EmbeddingsModel) (t : String) (bs : Nat)
    (hn : self.normalize = true) :
    ((∃ x ∈ self.model t, x ≠ 0) →
        self.embed t = (self.model t).map (fun x => x / l2norm (self.model t))
          ∧ l2norm (self.embed t) = 1)
      ∧ ((∀ x ∈ self.model t, x = 0) → self.embed t = self.model t)
      ∧ (eps ≤ l2norm (self.model t) →
          (self.embed_batch [t] bs).headI
              = (self.model t).map (fun x => x / l2norm (self.model t))
            ∧ l2norm ((self.embed_batch [t] bs).headI) = 1)
      ∧ ((∀ x ∈ self.model t, x = 0) → (self.embed_batch [t] bs).headI = self.model t) := by
  refine ⟨?_, ?_, ?_, ?_⟩
  · intro hex
    have hpos : 0 < l2norm (self.model t) := l2norm_pos hex
    have he : self.embed t = (self.model t).map (fun x => x / l2norm (self.model t)) := by
      simp [EmbeddingsModel.embed, hn, hpos, if_pos hpos]
    exact ⟨he, by rw [he]; exact l2norm_map_div hpos⟩
  · intro hall
    have hz : l2norm (self.model t) = 0 := l2norm_zero_of_forall hall
    simp [EmbeddingsModel.embed, hn, hz, lt_irrefl]
  · intro hge
    have hpos : 0 < l2norm (self.model t) := lt_of_lt_of_le eps_pos hge
    have he : (self.embed_batch [t] bs).headI
        = (self.model t).map (fun x => x / l2norm (self.model t)) := by
      simp only [EmbeddingsModel.embed_batch, hn, if_true, List.map_cons,
        List.map_nil, List.headI]
      rw [max_eq_left hge]
    exact ⟨he, by rw [he]; exact l2norm_map_div hpos⟩
  · intro hall
    have hz : l2norm (self.model t) = 0 := l2norm_zero_of_forall hall
    simp only [EmbeddingsModel.embed_batch, hn, if_true, List.map_cons,
      List.map_nil, List.headI, hz]
    rw [max_eq_right (le_of_lt eps_pos)]
    exact map_div_of_zero eps hall

/-- C4, witness: at a model with raw embedding `[3, 4]` (norm `5`,
normalization enabled), both hypotheses are dischargeable and both `embed`
and `embed_batch` produce unit-norm vectors. -/
theorem normalization_amended_witness :
    planeModel.normalize = true
      ∧ (∃ x ∈ planeModel.model "c", x ≠ 0)
      ∧ eps ≤ l2norm (planeModel.model "c")
      ∧ l2norm (planeModel.embed "c") = 1
      ∧ l2norm ((planeModel.embed_batch ["c"] 32).headI) = 1 := by
  have h5 : l2norm (planeModel.model "c") = 5 := by
    simp only [planeModel]; exact l2norm_pair_34
  have hex : ∃ x ∈ planeModel.model "c", x ≠ 0 :=
    ⟨3, by simp [planeModel], by norm_num⟩
  have hge : eps ≤ l2norm (planeModel.model "c") := by rw [h5]; norm_num [eps]
  exact ⟨rfl, hex, hge,
    ((normalization_amended planeModel "c" 32 rfl).1 hex).2,
    ((normalization_amended planeModel "c" 32 rfl).2.2.1 hge).2⟩

/-! ## Claims about the protocol front end -/

/-- C1, counterexample.  A `tools/call` request with the unregistered tool
name `bogus_tool` is answered with an RPC protocol-level `error` envelope
(code `-32603`), not with a failure-shaped tool result inside the `result`
field: `call_tool` raises `ValueError` and `handle_rpc` converts it to an
RPC error object. -/
theorem unknown_tool_counterexample :
    handleRpc trivialEnv
        ⟨some "tools/call", ⟨some "bogus_tool", some (Json.obj [])⟩, Json.null⟩
        = .rpcError (-32603) "Unknown tool: bogus_tool" Json.null
      ∧ ∀ r i, handleRpc trivialEnv
          ⟨some "tools/call", ⟨some "bogus_tool", some (Json.obj [])⟩, Json.null⟩
          ≠ RpcResponse.result r i := by
  constructor
  · rfl
  · intro r i h
    simp [handleRpc, processMethod, callTool] at h

/-- C1, amended.  A `tools/call` request whose tool name is not among the
eleven registered names never crashes uncaught — `handle_rpc` always
returns a response — but the response is an RPC protocol-level error
envelope with code `-32603` and message `Unknown tool: <name>`, not a
`success:false` tool result inside the RPC `result` field. -/
theorem unknown_tool_rpc_protocol_error (env : ServerEnv) (name : String)
    (arguments : Option Json) (id : Json) (h : name ∉ knownToolNames) :
    handleRpc env ⟨some "tools/call", ⟨some name, arguments⟩, id⟩
      = .rpcError (-32603) ("Unknown tool: " ++ name) id := by
  simp only [knownToolNames, List.mem_cons, List.not_mem_nil, or_false, not_or] at h
  obtain ⟨h1, h2, h3, h4, h5, h6, h7, h8, h9, h10, h11⟩ := h
  simp [handleRpc, processMethod, callTool, optNameRepr,
    h1, h2, h3, h4, h5, h6, h7, h8, h9, h10, h11]

/-- C1, witness: the name `bogus2` is not registered and its `tools/call`
yields the RPC protocol-level error envelope. -/
theorem unknown_tool_rpc_protocol_error_witness :
    "bogus2" ∉ knownToolNames
      ∧ handleRpc trivialEnv ⟨some "tools/call", ⟨some "bogus2", none⟩, Json.int 7⟩
          = .rpcError (-32603) ("Unknown tool: " ++ "bogus2") (Json.int 7) :=
  ⟨by decide,
   unknown_tool_rpc_protocol_error trivialEnv "bogus2" none (Json.int 7) (by decide)⟩

/-- C9, counterexample.  The capabilities payload of the SSE channel's
opening `initialized` notification (`{'tools': True}`) is not equal to the
capabilities returned by the `initialize` method
(`{'tools': {'listTools': True}}`). -/
theorem sse_capabilities_counterexample : sseCapabilities ≠ initializeCapabilities := by
  simp [sseCapabilities, initializeCapabilities]

/-- C9, amended.  On every open of the SSE channel the server first emits
exactly one `initialized` notification — whose capabilities payload is the
fixed `{'tools': True}` object, which differs from the capabilities
returned by `initialize` — and then a heartbeat every 30 time units until
the client disconnects after `n` heartbeats; the trace has length `n + 1`,
so nothing is emitted after disconnection, and every element after the
head is a ping (which differs from the opening notification, so the
notification is emitted exactly once). -/
theorem sse_stream_amended (n : Nat) :
    (sseTrace n)[0]? = some (0, sseInitMessage)
      ∧ (sseTrace n).length = n + 1
      ∧ (∀ k, k < n → (sseTrace n)[k + 1]? = some (30 * (k + 1), pingMessage))
      ∧ pingMessage ≠ sseInitMessage := by
  refine ⟨by simp [sseTrace], by simp [sseTrace], ?_, by simp [pingMessage, sseInitMessage]⟩
  intro k hk
  simp [sseTrace, List.getElem?_map, List.getElem?_range, hk]

/-- C9, witness: with a disconnect after two heartbeats, the head of the
trace is the opening notification and the next emission is the ping at
time 30. -/
theorem sse_stream_amended_witness :
    (sseTrace 2)[0]? = some (0, sseInitMessage)
      ∧ (sseTrace 2)[1]? = some (30, pingMessage) := by
  refine ⟨(sse_stream_amended 2).1, ?_⟩
  have h := (sse_stream_amended 2).2.2.1 0 (by norm_num)
  simpa using h

/-! ## Claims about the Neo4j and Qdrant tools -/

/-- Modelled from the spec: the strict identifier pattern the sanitizer for
structurally interpolated label and relationship-type tokens is required to
enforce (a leading letter or underscore followed by letters, digits or
underscores).  No such sanitizer exists anywhere in the code. -/
def isStrictIdentifier (s : String) : Bool :=
  match s.toList with
  | [] => false
  | c :: cs => (c.isAlpha || c = '_') && cs.all (fun d => d.isAlphanum || d = '_')

/-- A label token that fails the strict identifier pattern and carries a
Cypher injection. -/
def badLabel : String := "Person) MATCH (m) DETACH DELETE m //"

/-- A relationship-type token that fails the strict identifier pattern and
carries a Cypher injection. -/
def badRelType : String := "KNOWS]->(b) MATCH (m) DETACH DELETE m //"

/-- C2, code bug.  `neo4j_create_node` and `neo4j_create_relationship`
perform no identifier validation on the caller-supplied label and
relationship-type tokens: called with tokens that fail the strict
identifier pattern, both handlers interpolate the raw token into the
query text and send the query to the graph store instead of returning a
validation failure (the result is the store-level failure of the run, not
a pre-call validation error). -/
theorem structural_token_validation_missing :
    isStrictIdentifier badLabel = false
      ∧ (Neo4jCreateNodeTool.execute none (fun _ _ => none)
          ⟨some [badLabel], some [], none, none⟩).2
        = [Neo4jOp.createNode (createNodeQuery badLabel) []]
      ∧ (Neo4jCreateNodeTool.execute none (fun _ _ => none)
          ⟨some [badLabel], some [], none, none⟩).1
        = .err "Failed to create node"
      ∧ isStrictIdentifier badRelType = false
      ∧ (Neo4jCreateRelationshipTool.execute (fun _ _ _ _ => none)
          ⟨some 1, some 2, some badRelType, none⟩).2
        = [Neo4jOp.createRel (createRelQuery badRelType) 1 2 []]
      ∧ (Neo4jCreateRelationshipTool.execute (fun _ _ _ _ => none)
          ⟨some 1, some 2, some badRelType, none⟩).1
        = .err "Failed to create relationship - nodes not found" := by
  have hi : String.intercalate ":" [badLabel] = badLabel := by decide
  refine ⟨by decide, ?_, ?_, by decide, ?_, ?_⟩ <;>
    simp [Neo4jCreateNodeTool.execute, Neo4jCreateRelationshipTool.execute, hi]

/-- C7, confirmed.  Each of the three tools taking two mutually-exclusive
optional inputs (`qdrant_search` and `neo4j_vector_search` with
`query_text`/`query_vector`, `embeddings_generate` with `text`/`texts`)
returns the failure-shaped dictionary `{success:false, error:...}` when
neither input is supplied; the fault is returned as a value, never
raised. -/
theorem missing_query_inputs (emq : Option EmbeddingsModel)
    (storeQ : String → List ℝ → Option (List FilterCond) → Nat → Option ℝ → List Hit)
    (argsQ : QdrantSearchArgs)
    (emn : Option EmbeddingsModel)
    (storeN : String → List ℝ → ℝ → Nat → List (Properties × ℝ))
    (argsN : VectorSearchArgs)
    (emg : EmbeddingsModel) (argsG : GenerateArgs) :
    (argsQ.query_text = none → argsQ.query_vector = none →
      ∃ msg, (QdrantSearchTool.execute emq storeQ argsQ).1 = .err msg)
      ∧ (argsN.query_text = none → argsN.query_vector = none →
        ∃ msg, (Neo4jVectorSearchTool.execute emn storeN argsN).1 = .err msg)
      ∧ (argsG.text = none → argsG.texts = none →
        EmbeddingsGenerateTool.execute emg argsG
          = .err "Either 'text' or 'texts' must be provided") := by
  refine ⟨?_, ?_, ?_⟩
  · intro ht hv
    rcases hcn : argsQ.collection_name with _ | cn
    · exact ⟨"Missing required parameter: collection_name",
        by simp [QdrantSearchTool.execute, hcn]⟩
    · exact ⟨"Either query_text or query_vector must be provided",
        by simp [QdrantSearchTool.execute, hcn, ht, hv]⟩
  · intro ht hv
    rcases hl : argsN.label with _ | l
    · exact ⟨"Missing required parameter: label",
        by simp [Neo4jVectorSearchTool.execute, hl]⟩
    · exact ⟨"Either query_text or query_vector must be provided",
        by simp [Neo4jVectorSearchTool.execute, hl, ht, hv]⟩
  · intro ht hts
    simp [EmbeddingsGenerateTool.execute, ht, hts]

/-- C7, witness: concrete calls with neither input supplied return failure
results for all three tools. -/
theorem missing_query_inputs_witness :
    (∃ msg, (QdrantSearchTool.execute none (fun _ _ _ _ _ => [])
        ⟨some "c", none, none, none, none, none⟩).1 = .err msg)
      ∧ (∃ msg, (Neo4jVectorSearchTool.execute none (fun _ _ _ _ => [])
          ⟨none, none, some "L", none, none, none⟩).1 = .err msg)
      ∧ EmbeddingsGenerateTool.execute zeroModel ⟨none, none⟩
          = .err "Either 'text' or 'texts' must be provided" := by
  have h := missing_query_inputs none (fun _ _ _ _ _ => [])
    ⟨some "c", none, none, none, none, none⟩ none (fun _ _ _ _ => [])
    ⟨none, none, some "L", none, none, none⟩ zeroModel ⟨none, none⟩
  exact ⟨h.1 rfl rfl, h.2.1 rfl rfl, h.2.2 rfl rfl⟩

/-- C8, confirmed.  A well-formed `qdrant_delete_points` call with an id
list of length `N` issues exactly one batch delete operation carrying that
id list and reports `deleted_count = N`; the tool never consults the store
state, so the count does not depend on which ids existed. -/
theorem delete_points_reports_requested_count (args : DeletePointsArgs)
    (cn : String) (ids : List String)
    (h1 : args.collection_name = some cn) (h2 : args.point_ids = some ids) :
    QdrantDeletePointsTool.execute args
      = (.ok cn ids.length, [QdrantOp.deletePoints cn ids]) := by
  simp [QdrantDeletePointsTool.execute, h1, h2]

/-- C8, witness: deleting two ids reports a count of two and one batch
delete operation. -/
theorem delete_points_reports_requested_count_witness :
    QdrantDeletePointsTool.execute ⟨some "c", some ["a", "b"]⟩
      = (.ok "c" 2, [QdrantOp.deletePoints "c" ["a", "b"]]) :=
  delete_points_reports_requested_count ⟨some "c", some ["a", "b"]⟩ "c" ["a", "b"] rfl rfl

/-! ## Characterization of the upsert splicing algorithm -/

theorem collectPoints_ok (m : EmbeddingsModel) :
    ∀ (pts : List UpsertPoint) (genId : Nat → String) (i : Nat),
      (∀ p ∈ pts, p.text.isSome ∨ p.vector.isSome) →
      collectPoints (some m) genId i pts
        = .ok (phList (fun k => genId (i + k)) pts,
               pts.filterMap (fun p => p.text), idxTexts i pts) := by
  intro pts
  induction pts with
  | nil => intro genId i _; rfl
  | cons p rest ih =>
    intro genId i h
    have hrest : ∀ q ∈ rest, q.text.isSome ∨ q.vector.isSome :=
      fun q hq => h q (List.mem_cons_of_mem p hq)
    have hgen : (fun k => genId (i + (k + 1))) = (fun k => genId (i + 1 + k)) := by
      funext k; congr 1; omega
    rcases hp : p.text with _ | t
    · have hv : p.vector.isSome := by
        rcases h p (List.mem_cons_self p rest) with h' | h'
        · rw [hp] at h'; exact absurd h' (by simp)
        · exact h'
      rcases hv' : p.vector with _ | v
      · rw [hv'] at hv; exact absurd hv (by simp)
      · simp only [collectPoints, hp, hv', ih genId (i + 1) hrest, Except.map,
          phList, idxTexts, List.filterMap_cons, Nat.add_zero, hgen, Option.getD_some]
    · simp only [collectPoints, hp, ih genId (i + 1) hrest, Except.map,
        phList, idxTexts, List.filterMap_cons, Nat.add_zero, hgen]

theorem idxTexts_zip_pairs (m : EmbeddingsModel) :
    ∀ (pts : List UpsertPoint) (i : Nat),
      (idxTexts i pts).zip ((pts.filterMap (fun p => p.text)).map (batchVec m))
        = (pairsOf m pts).map (fun q => (q.1 + i, q.2)) := by
  intro pts
  induction pts with
  | nil => intro i; rfl
  | cons p rest ih =>
    intro i
    rcases hp : p.text with _ | t
    · simp only [idxTexts, hp, List.filterMap_cons, pairsOf, List.map_map]
      rw [ih (i + 1)]
      apply List.map_congr_left
      intro q _
      simp only [Function.comp_apply]
      congr 1
      omega
    · simp only [idxTexts, hp, List.filterMap_cons, pairsOf, List.map_cons,
        List.zip_cons_cons, List.map_map]
      rw [ih (i + 1)]
      congr 1
      · congr 1
        omega
      · apply List.map_congr_left
        intro q _
        simp only [Function.comp_apply]
        congr 1
        omega

theorem fillPoints_shift (genId : Nat → String) (p₀ : UpsertPoint) :
    ∀ (pairs : List (Nat × List ℝ)) (d : List UpsertPoint) (x : Option PointStruct)
      (ps : List (Option PointStruct)),
      fillPoints genId (p₀ :: d) (x :: ps) (pairs.map (fun q => (q.1 + 1, q.2)))
        = x :: fillPoints (fun k => genId (k + 1)) d ps pairs := by
  intro pairs
  induction pairs with
  | nil => intro d x ps; rfl
  | cons q rest ih =>
    intro d x ps
    obtain ⟨idx, emb⟩ := q
    simp only [List.map_cons, fillPoints, List.getD_cons_succ, List.set_cons_succ]
    exact ih d x _

theorem fillPoints_spec (m : EmbeddingsModel) :
    ∀ (pts : List UpsertPoint) (genId : Nat → String),
      (∀ p ∈ pts, p.text.isSome ∨ p.vector.isSome) →
      fillPoints genId pts (phList genId pts) (pairsOf m pts)
        = (specPoints m genId pts).map some := by
  intro pts
  induction pts with
  | nil => intro genId _; rfl
  | cons p rest ih =>
    intro genId h
    have hrest : ∀ q ∈ rest, q.text.isSome ∨ q.vector.isSome :=
      fun q hq => h q (List.mem_cons_of_mem p hq)
    rcases hp : p.text with _ | t
    · have hv : p.vector.isSome := by
        rcases h p (List.mem_cons_self p rest) with h' | h'
        · rw [hp] at h'; exact absurd h' (by simp)
        · exact h'
      rcases hv' : p.vector with _ | v
      · rw [hv'] at hv; exact absurd hv (by simp)
      · simp only [phList, pairsOf, hp, hv', Option.getD_some, specPoints,
          List.map_cons]
        rw [fillPoints_shift, ih (fun k => genId (k + 1)) hrest]
    · simp only [phList, pairsOf, hp, specPoints, List.map_cons, fillPoints,
        List.getD_cons_zero, List.set_cons_zero]
      rw [fillPoints_shift, ih (fun k => genId (k + 1)) hrest]

theorem specPoints_length (m : EmbeddingsModel) :
    ∀ (pts : List UpsertPoint) (genId : Nat → String),
      (specPoints m genId pts).length = pts.length := by
  intro pts
  induction pts with
  | nil => intro genId; rfl
  | cons p rest ih =>
    intro genId
    simp only [specPoints, List.length_cons, ih]

theorem specPoints_getElem (m : EmbeddingsModel) :
    ∀ (pts : List UpsertPoint) (genId : Nat → String) (i : Nat) (p : UpsertPoint),
      pts[i]? = some p →
      (∀ t, p.text = some t →
        (specPoints m genId pts)[i]? = some ⟨p.id.getD (genId i), batchVec m t, p.payload⟩)
      ∧ (∀ v, p.text = none → p.vector = some v →
        (specPoints m genId pts)[i]? = some ⟨p.id.getD (genId i), v, p.payload⟩) := by
  intro pts
  induction pts with
  | nil => intro genId i p hp; simp at hp
  | cons q rest ih =>
    intro genId i p hp
    cases i with
    | zero =>
      simp only [List.getElem?_cons_zero, Option.some.injEq] at hp
      subst hp
      constructor
      · intro t ht; simp [specPoints, ht]
      · intro v ht hv; simp [specPoints, ht, hv]
    | succ i' =>
      simp only [List.getElem?_cons_succ] at hp
      have hres := ih (fun k => genId (k + 1)) i' p hp
      constructor
      · intro t ht
        simp only [specPoints, List.getElem?_cons_succ]
        exact hres.1 t ht
      · intro v ht hv
        simp only [specPoints, List.getElem?_cons_succ]
        exact hres.2 v ht hv

theorem reduceOption_map_some_eq (l : List PointStruct) :
    (l.map some).reduceOption = l := by
  induction l with
  | nil => rfl
  | cons a rest ih => simp [ih]

theorem upsert_execute_ok (m : EmbeddingsModel) (genId : Nat → String)
    (cn : String) (pts : List UpsertPoint)
    (wf : ∀ p ∈ pts, p.text.isSome ∨ p.vector.isSome)
    (hx : ∃ p ∈ pts, p.text.isSome) :
    QdrantUpsertPointsTool.execute (some m) genId ⟨some cn, some pts⟩
      = ⟨.ok cn pts.length, [pts.filterMap (fun p => p.text)],
         [.upsert cn (specPoints m genId pts)]⟩ := by
  have hgen0 : (fun k => genId (0 + k)) = genId := by funext k; simp
  have hcol := collectPoints_ok m pts genId 0 wf
  rw [hgen0] at hcol
  obtain ⟨p, hpmem, hpt⟩ := hx
  rcases hpt' : p.text with _ | t
  · rw [hpt'] at hpt; exact absurd hpt (by simp)
  have htmem : t ∈ pts.filterMap (fun p => p.text) :=
    List.mem_filterMap.mpr ⟨p, hpmem, hpt'⟩
  have hne : pts.filterMap (fun p => p.text) ≠ [] := List.ne_nil_of_mem htmem
  have hzip : (idxTexts 0 pts).zip ((pts.filterMap (fun p => p.text)).map (batchVec m))
      = pairsOf m pts := by
    rw [idxTexts_zip_pairs m pts 0]
    have : (fun (q : Nat × List ℝ) => (q.1 + 0, q.2)) = id := by
      funext q; simp
    rw [this, List.map_id]
  rcases hts : pts.filterMap (fun p => p.text) with _ | ⟨t0, ts'⟩
  · exact absurd hts hne
  simp only [QdrantUpsertPointsTool.execute, hcol, hts]
  rw [← hts, embed_batch_eq_map, hzip, fillPoints_spec m pts genId wf,
    reduceOption_map_some_eq, List.length_map, specPoints_length]

theorem collectPoints_error (m : EmbeddingsModel) (genId : Nat → String) :
    ∀ (pts : List UpsertPoint) (i j : Nat) (p : UpsertPoint),
      pts[j]? = some p → p.text = none → p.vector = none →
      (∀ k q, k < j → pts[k]? = some q → q.text.isSome ∨ q.vector.isSome) →
      collectPoints (some m) genId i pts = .error (i + j) := by
  intro pts
  induction pts with
  | nil => intro i j p hp _ _ _; simp at hp
  | cons q rest ih =>
    intro i j p hp ht hv hmin
    cases j with
    | zero =>
      simp only [List.getElem?_cons_zero, Option.some.injEq] at hp
      subst hp
      simp only [collectPoints, ht, hv, Nat.add_zero]
    | succ j' =>
      simp only [List.getElem?_cons_succ] at hp
      have hq := hmin 0 q (Nat.succ_pos j') (by simp)
      have hminr : ∀ k r, k < j' → rest[k]? = some r → r.text.isSome ∨ r.vector.isSome := by
        intro k r hk hr
        exact hmin (k + 1) r (by omega) (by simpa using hr)
      have hrec := ih (i + 1) j' p hp ht hv hminr
      rcases hqt : q.text with _ | t
      · have hqv : q.vector.isSome := by
          rcases hq with h' | h'
          · rw [hqt] at h'; exact absurd h' (by simp)
          · exact h'
        rcases hqv' : q.vector with _ | v
        · rw [hqv'] at hqv; exact absurd hqv (by simp)
        · simp only [collectPoints, hqt, hqv', hrec, Except.map]
          congr 1
          omega
      · simp only [collectPoints, hqt, hrec, Except.map]
        congr 1
        omega

/-- C5, confirmed.  For a well-formed mixed point list, `qdrant_upsert_points`
makes exactly one batch call to the embedding gateway carrying the texts of
all text-bearing points in their original order, and issues exactly one
`upsert` whose point list has the original length, carries at each
text-bearing index the batch embedding of that point's text (`batchVec m t`
is the entry `embed_batch` produces for text `t`), and at each
vector-bearing index the caller's literal vector. -/
theorem upsert_splices_batch_embeddings (m : EmbeddingsModel) (genId : Nat → String)
    (cn : String) (pts : List UpsertPoint)
    (wf : ∀ p ∈ pts, p.text.isSome ∨ p.vector.isSome)
    (hmixText : ∃ p ∈ pts, p.text.isSome)
    (_hmixVec : ∃ p ∈ pts, p.text = none ∧ p.vector.isSome) :
    (QdrantUpsertPointsTool.execute (some m) genId ⟨some cn, some pts⟩).embedCalls
        = [pts.filterMap (fun p => p.text)]
      ∧ ∃ final,
          (QdrantUpsertPointsTool.execute (some m) genId ⟨some cn, some pts⟩).ops
              = [.upsert cn final]
            ∧ final.length = pts.length
            ∧ ∀ (i : Nat) (p : UpsertPoint), pts[i]? = some p →
                (∀ (t : String), p.text = some t →
                  final[i]? = some ⟨p.id.getD (genId i), batchVec m t, p.payload⟩)
                ∧ (∀ (v : List ℝ), p.text = none → p.vector = some v →
                  final[i]? = some ⟨p.id.getD (genId i), v, p.payload⟩) := by
  rw [upsert_execute_ok m genId cn pts wf hmixText]
  exact ⟨rfl, specPoints m genId pts, rfl, specPoints_length m pts genId,
    fun i p hp => specPoints_getElem m pts genId i p hp⟩

/-- C5, witness: a call mixing one text-only point and one vector-only
point makes one batch call with the single text and places the batch
embedding at index 0 and the literal vector at index 1. -/
theorem upsert_splices_batch_embeddings_witness :
    (QdrantUpsertPointsTool.execute (some zeroModel) (fun n => toString n)
        ⟨some "c", some [⟨some "p0", none, some "hello", []⟩,
                         ⟨some "p1", some [7], none, []⟩]⟩).embedCalls
      = [["hello"]]
    ∧ ∃ final,
        (QdrantUpsertPointsTool.execute (some zeroModel) (fun n => toString n)
            ⟨some "c", some [⟨some "p0", none, some "hello", []⟩,
                             ⟨some "p1", some [7], none, []⟩]⟩).ops
            = [.upsert "c" final]
          ∧ final[0]? = some ⟨"p0", batchVec zeroModel "hello", []⟩
          ∧ final[1]? = some ⟨"p1", [7], []⟩ := by
  have h := upsert_splices_batch_embeddings zeroModel (fun n => toString n) "c"
    [⟨some "p0", none, some "hello", []⟩, ⟨some "p1", some [7], none, []⟩]
    (by
      intro p hp
      rcases List.mem_cons.mp hp with rfl | hp'
      · left; rfl
      · rcases List.mem_cons.mp hp' with rfl | h0
        · right; rfl
        · exact absurd h0 (List.not_mem_nil p))
    ⟨⟨some "p0", none, some "hello", []⟩, List.mem_cons_self _ _, rfl⟩
    ⟨⟨some "p1", some [7], none, []⟩,
      List.mem_cons_of_mem _ (List.mem_cons_self _ _), rfl, rfl⟩
  obtain ⟨hcalls, final, hops, _, hpt⟩ := h
  refine ⟨by rw [hcalls]; rfl, final, hops, ?_, ?_⟩
  · exact (hpt 0 _ rfl).1 "hello" rfl
  · exact (hpt 1 _ rfl).2 [7] rfl rfl

/-- C6, confirmed.  If the point at index `j` has neither a `text` nor a
`vector` field (and every earlier point has one), the whole
`qdrant_upsert_points` call returns the validation failure naming index
`j`, makes no call to the embedding gateway and issues no operation to the
vector store. -/
theorem upsert_invalid_point_aborts (m : EmbeddingsModel) (genId : Nat → String)
    (cn : String) (pts : List UpsertPoint) (j : Nat) (p : UpsertPoint)
    (hj : pts[j]? = some p) (ht : p.text = none) (hv : p.vector = none)
    (hmin : ∀ k q, k < j → pts[k]? = some q → q.text.isSome ∨ q.vector.isSome) :
    QdrantUpsertPointsTool.execute (some m) genId ⟨some cn, some pts⟩
      = ⟨.err ("Point at index " ++ toString j
          ++ " must have either 'text' or 'vector'"), [], []⟩ := by
  have hcol := collectPoints_error m genId pts 0 j p hj ht hv hmin
  rw [Nat.zero_add] at hcol
  simp only [QdrantUpsertPointsTool.execute, hcol]

/-- C6, witness: a call whose second point has neither field fails naming
index 1 with no gateway call and no store operation. -/
theorem upsert_invalid_point_aborts_witness :
    QdrantUpsertPointsTool.execute (some zeroModel) (fun n => toString n)
        ⟨some "c", some [⟨some "a", some [1], none, []⟩, ⟨some "b", none, none, []⟩]⟩
      = ⟨.err ("Point at index " ++ toString 1
          ++ " must have either 'text' or 'vector'"), [], []⟩ := by
  exact upsert_invalid_point_aborts zeroModel (fun n => toString n) "c"
    [⟨some "a", some [1], none, []⟩, ⟨some "b", none, none, []⟩] 1
    ⟨some "b", none, none, []⟩ rfl rfl rfl
    (by
      intro k q hk hq
      have hk0 : k = 0 := by omega
      subst hk0
      simp only [List.getElem?_cons_zero, Option.some.injEq] at hq
      subst hq
      right; rfl)

/-- C10, confirmed.  Wherever a text input and a vector input can both be
supplied, the text input wins: `qdrant_upsert_points` stores, at a
text-bearing index, the vector synthesized from the text by the gateway's
batch call (whatever vector the caller supplied there); `qdrant_search`
and `neo4j_vector_search` send to the store the vector embedded from
`query_text` — the conclusions do not depend on the supplied
`query_vector`, which is silently ignored. -/
theorem text_input_precedence (m : EmbeddingsModel) (genId : Nat → String) :
    (∀ (cn : String) (pts : List UpsertPoint),
      (∀ p ∈ pts, p.text.isSome ∨ p.vector.isSome) →
      ∀ (i : Nat) (p : UpsertPoint) (t : String), pts[i]? = some p → p.text = some t →
      ∃ final, (QdrantUpsertPointsTool.execute (some m) genId ⟨some cn, some pts⟩).ops
          = [.upsert cn final]
        ∧ final[i]? = some ⟨p.id.getD (genId i), batchVec m t, p.payload⟩)
    ∧ (∀ store (args : QdrantSearchArgs) cn t,
        args.collection_name = some cn → args.query_text = some t →
        QdrantSearchTool.execute (some m) store args
          = (.ok (store cn (m.embed t) (args.filter.getD none) (args.limit.getD 10)
                args.score_threshold),
             [.search cn (m.embed t) (args.filter.getD none) (args.limit.getD 10)
                args.score_threshold]))
    ∧ (∀ store (args : VectorSearchArgs) lb t,
        args.label = some lb → args.query_text = some t →
        Neo4jVectorSearchTool.execute (some m) store args
          = (.ok (store (vectorSearchQuery lb (args.embedding_property.getD "embedding"))
                (m.embed t) (args.min_similarity.getD 0) (args.limit.getD 10)),
             [.vectorSearch (vectorSearchQuery lb (args.embedding_property.getD "embedding"))
                (m.embed t) (args.min_similarity.getD 0) (args.limit.getD 10)])) := by
  refine ⟨?_, ?_, ?_⟩
  · intro cn pts wf i p t hp ht
    have hpm : p ∈ pts := by
      obtain ⟨hlt, rfl⟩ := List.getElem?_eq_some.mp hp
      exact List.getElem_mem hlt
    have hx : ∃ q ∈ pts, q.text.isSome := ⟨p, hpm, by rw [ht]; rfl⟩
    rw [upsert_execute_ok m genId cn pts wf hx]
    exact ⟨specPoints m genId pts, rfl, (specPoints_getElem m pts genId i p hp).1 t ht⟩
  · intro store args cn t h1 h2
    simp [QdrantSearchTool.execute, h1, h2]
  · intro store args lb t h1 h2
    simp [Neo4jVectorSearchTool.execute, h1, h2]

/-- C10, witness: concrete calls where both the text and a vector are
supplied; the issued operations carry the embedded text, not the supplied
vector `[9]`. -/
theorem text_input_precedence_witness :
    (∃ final, (QdrantUpsertPointsTool.execute (some zeroModel) (fun n => toString n)
        ⟨some "c", some [⟨some "q0", some [9], some "hi", []⟩,
                         ⟨some "q1", some [7], none, []⟩]⟩).ops
          = [.upsert "c" final]
        ∧ final[0]? = some ⟨"q0", batchVec zeroModel "hi", []⟩)
    ∧ QdrantSearchTool.execute (some zeroModel) (fun _ _ _ _ _ => [])
        ⟨some "c", some "hi", some [9], none, none, none⟩
        = (.ok [], [.search "c" (zeroModel.embed "hi") none 10 none])
    ∧ Neo4jVectorSearchTool.execute (some zeroModel) (fun _ _ _ _ => [])
        ⟨some "hi", some [9], some "L", none, none, none⟩
        = (.ok [], [.vectorSearch (vectorSearchQuery "L" "embedding")
            (zeroModel.embed "hi") 0 10]) := by
  have h := text_input_precedence zeroModel (fun n => toString n)
  refine ⟨?_, ?_, ?_⟩
  · exact h.1 "c" [⟨some "q0", some [9], some "hi", []⟩, ⟨some "q1", some [7], none, []⟩]
      (by
        intro p hp
        rcases List.mem_cons.mp hp with rfl | hp'
        · left; rfl
        · rcases List.mem_cons.mp hp' with rfl | h0
          · right; rfl
          · exact absurd h0 (List.not_mem_nil p))
      0 _ "hi" rfl rfl
  · exact h.2.1 (fun _ _ _ _ _ => []) ⟨some "c", some "hi", some [9], none, none, none⟩
      "c" "hi" rfl rfl
  · exact h.2.2 (fun _ _ _ _ => []) ⟨some "hi", some [9], some "L", none, none, none⟩
      "L" "hi" rfl rfl
